import Mathlib

/-!
Verification of the squashfs data-block reading layer and file-node layer.

The Go sources are shallowly embedded:
* bytes are `Nat` (each value < 256 in practice; no arithmetic on byte values
  is performed by the embedded code, so no masking is needed),
* `uint32` values are `Nat`, with an explicit `% 2 ^ 32` wrap in the one
  place the Go code's 32-bit arithmetic can overflow (the shifted size in
  `NewDataBlockSize`),
* `int` / `int64` fields that can meaningfully be compared with 0 are `Int`,
* the image is a `List Nat` of bytes; a section read at offset `o` of length
  `n` yields the bytes `o, o+1, ...` truncated at the end of the image
  (`io.SectionReader` + `io.Copy` semantics: end-of-file is a clean end),
* the decompressor (an interface in Go) is a function parameter
  `List Nat → Option (List Nat)`, `none` modelling a decode error,
* fallible operations return an error component `Option GErr`,
* the `Read` loop of the sequential reader is embedded with an explicit fuel
  argument; a result of `none` means the loop has not terminated within the
  given fuel, and a statement proved for every fuel value shows divergence.
-/

/-- Error values appearing in the embedded code.  `eof` stands for `io.EOF`
(used both by `readCurBlock` and by `ReadDir`), `ranOutOfBlocks` and
`didntReadEnough` for the corresponding `errors.New` values, `decompressFail`
for an error returned by the decompressor, `negOffset` for the I/O error a
section reader at a negative offset produces, and the remaining constructors
for the file-level errors of `reader_file.go`. -/
inductive GErr where
  | eof
  | ranOutOfBlocks
  | decompressFail
  | didntReadEnough
  | negOffset
  | notAFile
  | closed
  | notADirectory
  | newFileInfoFail
deriving DecidableEq

/-- Block Descriptor, from `DataBlock` in the Go source: offset of the block's
payload in the image, on-disk size, compression flag and (lazily filled)
uncompressed size. -/
structure DataBlock where
  begOffset : Int := 0
  size : Nat := 0
  compressed : Bool := false
  uncompressedSize : Nat := 0
deriving DecidableEq, Inhabited

/-- From `NewDataBlockSize` in the Go source:
`dbs.compressed = raw&1<<24 != 1<<24`, `dbs.size = raw &^ 1 << 24`, and for an
uncompressed block `dbs.uncompressedSize = dbs.size`.  In Go, `&`, `&^` and
`<<` all sit at precedence level 5 and same-level binary operators associate
left to right, so `raw&1<<24` parses as `(raw&1)<<24` — a test of raw's low
bit, shifted (never wrapping, since the operand is 0 or 1) — and
`raw &^ 1 << 24` parses as `(raw &^ 1) << 24`, computed in `uint32` and hence
wrapped modulo `2^32`.  For a `uint32` operand, `raw &^ 1` is
`raw &&& 0xFFFFFFFE`. -/
def NewDataBlockSize (raw : Nat) : DataBlock :=
  let c : Bool := ((raw &&& 1) <<< 24) != (1 <<< 24)
  { begOffset := 0
    size := ((raw &&& 0xFFFFFFFE) <<< 24) % 2 ^ 32
    compressed := c
    uncompressedSize := if c then 0 else ((raw &&& 0xFFFFFFFE) <<< 24) % 2 ^ 32 }

/-- The part of the `Reader` used by the data reader: the underlying image
bytes, the superblock's block size, and the decompressor.  The decompressor
interface is not part of the sources; it is a function parameter, `none`
modelling a decode failure. -/
structure SfsReader where
  image : List Nat
  blockSize : Nat
  decompress : List Nat → Option (List Nat)

/-- Sequential block reader state, from `DataReader` in the Go source. -/
structure DataReader where
  r : SfsReader
  offset : Int
  blocks : List DataBlock
  curBlock : Int
  curData : List Nat
  curReadOffset : Nat

/-- Bytes delivered by `io.Copy` from `io.NewSectionReader(r, off, n)` over the
image: the `n` bytes starting at `off`, truncated at the end of the image
(end-of-file is a clean end for `io.Copy`); a negative offset is an error. -/
def readSection (image : List Nat) (off : Int) (n : Nat) : Option (List Nat) :=
  if off < 0 then none else some ((image.drop off.toNat).take n)

/-- From `readCurBlock` in the Go source.  Returns the updated reader and the
error component (`none` on success). -/
def readCurBlock (d : DataReader) : DataReader × Option GErr :=
  if d.curBlock ≥ (d.blocks.length : Int) then (d, some .eof)
  else
    let b := d.blocks.getD d.curBlock.toNat default
    if b.size = 0 then
      ({ d with
          curData := List.replicate d.r.blockSize 0
          blocks := d.blocks.set d.curBlock.toNat
            { b with uncompressedSize := d.r.blockSize, begOffset := d.offset } }, none)
    else
      match readSection d.r.image d.offset b.size with
      | none => (d, some .negOffset)
      | some sec =>
        if b.compressed then
          match d.r.decompress sec with
          | none => (d, some .decompressFail)
          | some btys =>
            ({ d with
                curData := btys
                blocks := d.blocks.set d.curBlock.toNat
                  { b with uncompressedSize := btys.length, begOffset := d.offset }
                offset := d.offset + (b.size : Int) }, none)
        else
          ({ d with
              curData := sec
              blocks := d.blocks.set d.curBlock.toNat { b with begOffset := d.offset }
              offset := d.offset + (b.size : Int) }, none)

/-- From `readNextBlock` in the Go source: increment the current-block index;
past the end, roll back and fail; otherwise materialize the new current block,
and on failure roll the index back and re-materialize (the error of that
re-materialization is discarded by the Go code). -/
def readNextBlock (d : DataReader) : DataReader × Option GErr :=
  let d1 := { d with curBlock := d.curBlock + 1 }
  if d1.curBlock ≥ (d1.blocks.length : Int) then
    ({ d1 with curBlock := d1.curBlock - 1 }, some .ranOutOfBlocks)
  else
    match readCurBlock d1 with
    | (d2, none) => (d2, none)
    | (d2, some e) =>
      let d3 := { d2 with curBlock := d2.curBlock - 1 }
      ((readCurBlock d3).1, some e)

/-- From `NewDataReader` in the Go source: decode every raw size into a
descriptor, then eagerly materialize block 0; a materialization error fails
the construction. -/
def NewDataReader (r : SfsReader) (offset : Int) (sizes : List Nat) : Option DataReader :=
  let d0 : DataReader :=
    { r := r, offset := offset, blocks := sizes.map NewDataBlockSize,
      curBlock := 0, curData := [], curReadOffset := 0 }
  match readCurBlock d0 with
  | (d1, none) => some d1
  | (_, some _) => none

/-- The inner `for` loop of `Read` in the Go source:
`for ; read < len(p); read++ { curRead++; if curReadOffset+curRead < len(curData) { p[read] = curData[curReadOffset+curRead] } else { break } }`.
Note that the Go body increments `curRead` before using it as an index, and
that `break` skips the `read++` post-statement.  Returns the updated buffer
and the final values of `read` and `curRead`. -/
def readInner (p curData : List Nat) (curReadOffset read curRead : Nat) :
    List Nat × Nat × Nat :=
  if h : read < p.length then
    if curReadOffset + (curRead + 1) < curData.length then
      readInner (p.set read (curData.getD (curReadOffset + (curRead + 1)) 0))
        curData curReadOffset (read + 1) (curRead + 1)
    else (p, read, curRead + 1)
  else (p, read, curRead)
termination_by p.length - read
decreasing_by simp [List.length_set]; omega

/-- The outer `for read < len(p)` loop of `Read` in the Go source, with an
explicit fuel bound on the number of outer iterations; `none` means the loop
has not finished within `fuel` iterations.  One iteration: if the read cursor
sits exactly at the end of the cached data, advance to the next block
(returning the bytes read so far and the error if that fails), resetting
`curRead` to 0; then run the inner copy loop.  After the loop, a shortfall
would produce the `didntReadEnough` error. -/
def readLoop : Nat → DataReader → List Nat → Nat → Nat →
    Option (DataReader × List Nat × Nat × Option GErr)
  | 0, _, _, _, _ => none
  | fuel + 1, d, p, read, curRead =>
    if read < p.length then
      if d.curReadOffset = d.curData.length then
        match readNextBlock d with
        | (d1, some e) => some (d1, p, read, some e)
        | (d1, none) =>
          let t := readInner p d1.curData d1.curReadOffset read 0
          readLoop fuel d1 t.1 t.2.1 t.2.2
      else
        let t := readInner p d.curData d.curReadOffset read curRead
        readLoop fuel d t.1 t.2.1 t.2.2
    else
      if read ≠ p.length then some (d, p, read, some .didntReadEnough)
      else some (d, p, read, none)

/-- The fast path of `Read`: `for i := 0; i < len(p); i++ { p[i] = curData[curReadOffset+i] }`. -/
def copyFast (p curData : List Nat) (off : Nat) : List Nat :=
  (List.range p.length).map fun i => curData.getD (off + i) 0

/-- From `Read` in the Go source: if the cached block holds strictly more
remaining bytes than requested, copy directly and advance the cursor;
otherwise enter the outer loop with `read = 0`, `curRead = 0`.  Returns the
updated reader, the updated buffer, the byte count and the error component;
`none` means the loop did not terminate within `fuel` outer iterations. -/
def DataReader.read (fuel : Nat) (d : DataReader) (p : List Nat) :
    Option (DataReader × List Nat × Nat × Option GErr) :=
  if d.curReadOffset + p.length < d.curData.length then
    some ({ d with curReadOffset := d.curReadOffset + p.length },
      copyFast p d.curData d.curReadOffset, p.length, none)
  else
    readLoop fuel d p 0 0

/-- The current-block index is in range: `0 ≤ curBlock < len(blocks)`. -/
def goodIdx (d : DataReader) : Prop :=
  0 ≤ d.curBlock ∧ d.curBlock < (d.blocks.length : Int)

/-- Inode types, from the `inode` package referenced by `reader_file.go`.
Modelled from the spec: the inode/directory decoder is an external
collaborator supplying the decoded inode type (file, directory, symlink,
device, FIFO, each in a basic and an extended variant). -/
inductive InodeType where
  | fil
  | efil
  | dir
  | edir
  | sym
  | esym
  | char
  | blk
  | echar
  | eblk
  | fifo
  | efifo
deriving DecidableEq

/-- Modelled from the spec: a directory entry (name plus inode reference) is
opaque to the file-node layer; entries are abstract tokens. -/
abbrev Entry := Nat

/-- Modelled from the spec: the Random-Access ("full") reader of §4.3 whose
code is not among the sources; only its dispatch contract is needed here, so
it is a pair of result-producing operations (`readAt` over a buffer and an
offset, `writeTo` producing a byte count), each returning a count and an
error component. -/
structure FullReader where
  readAtFn : List Nat → Int → Nat × Option GErr
  writeToFn : Int × Option GErr

/-- File node, from `File` in `reader_file.go`: the decoded inode type, the
sequential reader handle (`nil` after `Close`), the random-access reader
handle, the inode's packed device field, and the `dirsRead` cursor.
Modelled from the spec: `ents` stands for the (successful) result of
`f.r.readDirectory(f.i)` — the node's child entries; `rootEnts` stands for
`f.r.e`, the entry list held by the `Reader` (whose declaration is not among
the sources); `fiOk` models `f.r.newFileInfo` as a per-entry success
predicate, the produced directory entry being identified with its source
entry. -/
structure FileNode where
  itype : InodeType
  rdr : Option DataReader
  fullRdr : FullReader
  devField : Nat
  dirsRead : Nat
  ents : List Entry
  rootEnts : List Entry
  fiOk : Entry → Bool

/-- From `Read` in `reader_file.go`: a non-regular node fails with
`ErrReadNotFile`; a nil reader (after `Close`) fails with `fs.ErrClosed`;
otherwise the call delegates to the sequential reader. -/
def FileNode.Read (fuel : Nat) (f : FileNode) (p : List Nat) :
    Option (FileNode × List Nat × Nat × Option GErr) :=
  if f.itype ≠ .fil ∧ f.itype ≠ .efil then some (f, p, 0, some .notAFile)
  else
    match f.rdr with
    | none => some (f, p, 0, some .closed)
    | some d =>
      match DataReader.read fuel d p with
      | none => none
      | some (d1, p1, n, e) => some ({ f with rdr := some d1 }, p1, n, e)

/-- From `ReadAt` in `reader_file.go`. -/
def FileNode.ReadAt (f : FileNode) (p : List Nat) (off : Int) : Nat × Option GErr :=
  if f.itype ≠ .fil ∧ f.itype ≠ .efil then (0, some .notAFile)
  else f.fullRdr.readAtFn p off

/-- From `WriteTo` in `reader_file.go`. -/
def FileNode.WriteTo (f : FileNode) : Int × Option GErr :=
  if f.itype ≠ .fil ∧ f.itype ≠ .efil then (0, some .notAFile)
  else f.fullRdr.writeToFn

/-- From `Close` in `reader_file.go`: nils the sequential reader handle and
always returns a nil error. -/
def FileNode.Close (f : FileNode) : FileNode × Option GErr :=
  ({ f with rdr := none }, none)

/-- From `deviceDevices` in `reader_file.go`: the packed device field is taken
from the (extended) device inode payload, 0 for other types, and split as
`(dev >> 8, dev & 0x000FF)`. -/
def FileNode.deviceDevices (f : FileNode) : Nat × Nat :=
  let dev : Nat :=
    if f.itype = .char ∨ f.itype = .blk then f.devField
    else if f.itype = .echar ∨ f.itype = .eblk then f.devField
    else 0
  (dev >>> 8, dev &&& 0x000FF)

/-- The `for _, e := range ents[start:end]` loop of `ReadDir`: convert each
entry (on failure, advance `dirsRead` by the entries produced so far and
return them with the error), appending successes to `out`.  The Go loop
assigns the conversion's error to the named return value `err`, so a
successful conversion overwrites any previously recorded error with nil —
hence the error component is threaded and replaced by `none` on success. -/
def readDirLoop (f : FileNode) (todo : List Entry) (out : List Entry) (err : Option GErr) :
    Option (FileNode × List Entry × Option GErr) :=
  match todo with
  | [] => some ({ f with dirsRead := f.dirsRead + out.length }, out, err)
  | e :: rest =>
    if f.fiOk e then readDirLoop f rest (out ++ [e]) none
    else some ({ f with dirsRead := f.dirsRead + out.length }, out, some .newFileInfoFail)

/-- From `ReadDir` in `reader_file.go`: non-directories fail with the
not-a-directory error; otherwise `start, end := 0, len(ents)`, and for
`n > 0` instead `start, end := dirsRead, dirsRead+n`, with `end` clamped
against `len(f.r.e)` (the Reader's entry list, not this directory's!) and
`io.EOF` recorded when the clamp fires; then the loop runs over
`ents[start:end]`.  A slice bound outside `[0, len(ents)]` (or `start > end`)
is a Go runtime panic, embedded as `none`. -/
def FileNode.ReadDir (f : FileNode) (n : Int) : Option (FileNode × List Entry × Option GErr) :=
  if ¬(f.itype = .dir ∨ f.itype = .edir) then some (f, [], some .notADirectory)
  else
    let se : Nat × Nat × Option GErr :=
      if 0 < n then
        if f.rootEnts.length < f.dirsRead + n.toNat then
          (f.dirsRead, f.rootEnts.length, some .eof)
        else (f.dirsRead, f.dirsRead + n.toNat, none)
      else (0, f.ents.length, none)
    if se.1 ≤ se.2.1 ∧ se.2.1 ≤ f.ents.length then
      readDirLoop f ((f.ents.drop se.1).take (se.2.1 - se.1)) [] se.2.2
    else none

/-! Concrete inputs used by the claim theorems, witnesses and
counterexamples. -/

/-- A reader over a two-byte image whose decompressor always fails. -/
def c2r : SfsReader := { image := [10, 20], blockSize := 4, decompress := fun _ => none }

/-- The state `NewDataReader c2r 0 [3]` produces.  The packed value 3 is odd,
so the block decodes as uncompressed with on-disk size
`(3 &^ 1) << 24 = 2^25 = 33554432`; the section read is truncated at the end
of the two-byte image, so the materialized cache is `[10, 20]` and the offset
cursor advances by the on-disk size. -/
def c2d : DataReader :=
  { r := c2r, offset := 33554432,
    blocks := [{ begOffset := 0, size := 33554432, compressed := false,
                 uncompressedSize := 33554432 }],
    curBlock := 0, curData := [10, 20], curReadOffset := 0 }

/-- A reader over a three-byte image. -/
def c3r : SfsReader := { image := [10, 20, 30], blockSize := 4, decompress := fun _ => none }

/-- The state `NewDataReader c3r 0 [3]` produces: an uncompressed block of
on-disk size `2^25`, truncated at the end of the three-byte image, so the
materialized cache is `[10, 20, 30]`. -/
def c3d : DataReader :=
  { r := c3r, offset := 33554432,
    blocks := [{ begOffset := 0, size := 33554432, compressed := false,
                 uncompressedSize := 33554432 }],
    curBlock := 0, curData := [10, 20, 30], curReadOffset := 0 }

/-- A sequential reader that has materialized block 0 (bytes `[10, 20]` at
offsets 0–1, offset cursor already advanced to 2) and whose block 1 is a
compressed block whose decompression fails. -/
def cexD4 : DataReader :=
  { r := { image := [10, 20, 1, 2], blockSize := 4, decompress := fun _ => none },
    offset := 2,
    blocks := [{ begOffset := 0, size := 2, compressed := false, uncompressedSize := 2 },
               { begOffset := 0, size := 2, compressed := true, uncompressedSize := 0 }],
    curBlock := 0, curData := [10, 20], curReadOffset := 2 }

/-- A reader whose current block descriptor has on-disk size 0 (sparse). -/
def dw5 : DataReader :=
  { r := { image := [9, 9], blockSize := 3, decompress := fun _ => none },
    offset := 7,
    blocks := [{ begOffset := 0, size := 0, compressed := false, uncompressedSize := 0 }],
    curBlock := 0, curData := [], curReadOffset := 0 }

/-- A directory node with two child entries while the Reader's own entry list
holds five entries. -/
def f6 : FileNode :=
  { itype := .dir, rdr := none, fullRdr := ⟨fun _ _ => (0, none), (0, none)⟩,
    devField := 0, dirsRead := 0, ents := [1, 2], rootEnts := [1, 2, 3, 4, 5],
    fiOk := fun _ => true }

/-- A directory node (not a regular file). -/
def f7w : FileNode :=
  { itype := .dir, rdr := none, fullRdr := ⟨fun _ _ => (0, none), (0, none)⟩,
    devField := 0, dirsRead := 0, ents := [], rootEnts := [], fiOk := fun _ => true }

/-- A character-device node with packed device field `0xABC`. -/
def f8w : FileNode :=
  { itype := .char, rdr := none, fullRdr := ⟨fun _ _ => (0, none), (0, none)⟩,
    devField := 0xABC, dirsRead := 0, ents := [], rootEnts := [], fiOk := fun _ => true }

/-- A regular-file node holding an open sequential reader handle. -/
def f9w : FileNode :=
  { itype := .fil, rdr := some c2d, fullRdr := ⟨fun _ _ => (0, none), (0, none)⟩,
    devField := 0, dirsRead := 0, ents := [], rootEnts := [], fiOk := fun _ => true }

/-- The reader state after `DataReader.read 1 c2d [0]` (fast path, one byte
consumed). -/
def c10d1 : DataReader :=
  { c2d with curReadOffset := 1 }

/-! Helper lemmas. -/

/-- When the inner copy loop cannot take a byte (the incremented `curRead`
index reaches the end of the cached data), it stops at once, incrementing
only `curRead`. -/
theorem readInner_stuck (p curData : List Nat) (off read curRead : Nat)
    (h1 : read < p.length) (h2 : curData.length ≤ off + curRead + 1) :
    readInner p curData off read curRead = (p, read, curRead + 1) := by
  rw [readInner]
  rw [dif_pos h1, if_neg (by omega)]

/-- Divergence of the outer `Read` loop: once the read cursor is strictly
inside the cached data but the incremented `curRead` index is at or past its
end, every further iteration only increments `curRead`, so the loop never
terminates, whatever the fuel. -/
theorem readLoop_stuck (d : DataReader) (p : List Nat) (read : Nat)
    (h1 : read < p.length) (h2 : d.curReadOffset ≠ d.curData.length) :
    ∀ fuel curRead, d.curData.length ≤ d.curReadOffset + curRead + 1 →
      readLoop fuel d p read curRead = none := by
  intro fuel
  induction fuel with
  | zero => intro curRead _; rfl
  | succ n ih =>
    intro curRead h3
    rw [readLoop]
    rw [if_pos h1, if_neg h2, readInner_stuck p d.curData d.curReadOffset read curRead h1 h3]
    exact ih (curRead + 1) (by omega)

/-! Claim C1. -/

/-- C1 counterexample: the claim reads the flag as the most-significant bit of
the packed 32-bit field.  At the packed value `1` (bit 31 clear, so the claim
predicts `isCompressed = true` and `onDiskSize = 1`) the code decodes
`compressed = false` (it tests raw's low bit: `raw&1<<24` is `(raw&1)<<24`)
and `onDiskSize = (1 &^ 1) << 24 = 0`.  Both conjuncts of the claim fail at
this input. -/
theorem C1_counterexample :
    ¬ ((((NewDataBlockSize 1).compressed = false) ↔
          (1 : Nat).testBit 31 = true) ∧
        (NewDataBlockSize 1).size = 1 &&& 0x7FFFFFFF) := by
  decide

/-- C1 amended: decoding a packed size value yields `isCompressed = false`
exactly when the packed value is odd (the flag the code tests is bit 0, via
the left-associative parse `(raw&1)<<24`, not the most-significant bit), and
an `onDiskSize` equal to the packed value with bit 0 cleared, shifted left by
24 bits and wrapped to 32 bits — that is, `(raw & 0xFE) * 2^24`; the flag
bit (bit 0) is never contained in the decoded size.  This holds for every
natural, in particular for every 32-bit packed value. -/
theorem C1_amended (raw : Nat) :
    ((NewDataBlockSize raw).compressed = false ↔ raw % 2 = 1) ∧
    (NewDataBlockSize raw).size = (raw &&& 0xFE) * 2 ^ 24 ∧
    (NewDataBlockSize raw).size &&& 1 = 0 := by
  have hsz : (NewDataBlockSize raw).size
      = ((raw &&& 0xFFFFFFFE) <<< 24) % 2 ^ 32 := rfl
  have hc : (NewDataBlockSize raw).compressed
      = (((raw &&& 1) <<< 24) != (1 <<< 24)) := by
    simp only [NewDataBlockSize]
  have hmain : (NewDataBlockSize raw).size = (raw &&& 0xFE) * 2 ^ 24 := by
    have hm : (0xFFFFFFFE : Nat) &&& (2 ^ 8 - 1) = 0xFE := by decide
    have hmod : (raw &&& 0xFFFFFFFE) % 2 ^ 8 = raw &&& 0xFE := by
      rw [← Nat.and_pow_two_sub_one_eq_mod, Nat.and_assoc, hm]
    have h32 : (2 : Nat) ^ 32 = 2 ^ 8 * 2 ^ 24 := by norm_num
    rw [hsz, Nat.shiftLeft_eq, h32, Nat.mul_mod_mul_right, hmod]
  refine ⟨?_, hmain, ?_⟩
  · rw [hc, Nat.and_one_is_mod]
    rcases Nat.mod_two_eq_zero_or_one raw with hp | hp <;> rw [hp] <;> decide
  · have h24 : (2 : Nat) ^ 24 = 2 ^ 23 * 2 := by norm_num
    rw [hmain, Nat.and_one_is_mod, h24, ← Nat.mul_assoc, Nat.mul_mod_left]

/-! Claim C2. -/

/-- C2: the claim says a read of L bytes over an uncompressed block sequence
reproduces the blocks' concatenation for every split of L.  The code violates
this: the packed size 3 decodes to an uncompressed block (3 is odd) whose
on-disk size `2^25` is truncated at the end of the two-byte image, so
construction caches `[10, 20]`; a `Read` with a 2-byte buffer then enters the
slow path (the fast path needs strictly more cached bytes than requested),
copies the wrong byte `curData[1]` into `p[0]` and loops forever — for every
fuel bound the loop is still running, so the call never returns the
concatenation. -/
theorem C2_read_diverges :
    NewDataReader c2r 0 [3] = some c2d ∧
    ∀ fuel, DataReader.read fuel c2d [0, 0] = none := by
  constructor
  · rfl
  · intro fuel
    cases fuel with
    | zero => rfl
    | succ n =>
      have h1 : DataReader.read (n + 1) c2d [0, 0] = readLoop (n + 1) c2d [0, 0] 0 0 := by
        rw [DataReader.read, if_neg (by decide)]
      have h2 : readLoop (n + 1) c2d [0, 0] 0 0 = readLoop n c2d [20, 0] 1 2 := by
        rw [readLoop, if_pos (by decide), if_neg (by decide)]
        have hi : readInner [0, 0] c2d.curData c2d.curReadOffset 0 0 = ([20, 0], 1, 2) := by
          rw [readInner]
          rw [dif_pos (by decide), if_pos (by decide)]
          rw [readInner_stuck _ _ _ _ _ (by decide) (by decide)]
          rfl
        rw [hi]
      rw [h1, h2]
      exact readLoop_stuck c2d [20, 0] 1 (by decide) (by decide) n 2 (by decide)

/-! Claim C3. -/

/-- C3: the claim says a read that exhausts the block list returns the bytes
actually copied together with the end-of-blocks condition.  The code violates
this: the packed size 3 decodes to a single uncompressed block whose cache,
truncated at the end of the three-byte image, is `[10, 20, 30]`; a `Read`
with a 5-byte buffer copies two wrong bytes (`curData[1]`, `curData[2]`) and
then loops forever without ever reaching the next-block step, so the call
never returns a count or the end condition, for every fuel bound. -/
theorem C3_exhaustion_diverges :
    NewDataReader c3r 0 [3] = some c3d ∧
    ∀ fuel, DataReader.read fuel c3d [0, 0, 0, 0, 0] = none := by
  constructor
  · rfl
  · intro fuel
    cases fuel with
    | zero => rfl
    | succ n =>
      have h1 : DataReader.read (n + 1) c3d [0, 0, 0, 0, 0]
          = readLoop (n + 1) c3d [0, 0, 0, 0, 0] 0 0 := by
        rw [DataReader.read, if_neg (by decide)]
      have h2 : readLoop (n + 1) c3d [0, 0, 0, 0, 0] 0 0
          = readLoop n c3d [20, 30, 0, 0, 0] 2 3 := by
        rw [readLoop, if_pos (by decide), if_neg (by decide)]
        have hi : readInner [0, 0, 0, 0, 0] c3d.curData c3d.curReadOffset 0 0
            = ([20, 30, 0, 0, 0], 2, 3) := by
          rw [readInner]
          rw [dif_pos (by decide), if_pos (by decide)]
          rw [readInner]
          rw [dif_pos (by decide), if_pos (by decide)]
          rw [readInner_stuck _ _ _ _ _ (by decide) (by decide)]
          rfl
        rw [hi]
      rw [h1, h2]
      exact readLoop_stuck c3d [20, 30, 0, 0, 0] 2 (by decide) (by decide) n 3 (by decide)

/-! Claim C4. -/

/-- On any error, `readCurBlock` leaves the reader state unchanged. -/
theorem readCurBlock_err (d : DataReader) (e : GErr) :
    (readCurBlock d).2 = some e → (readCurBlock d).1 = d := by
  simp only [readCurBlock]
  split
  · intro _
    rfl
  · split
    · intro h
      simp at h
    · split
      · intro _
        rfl
      · split
        · split
          · intro _
            rfl
          · intro h
            simp at h
        · intro h
          simp at h

/-- C4 counterexample: the claim says that after a failed next-block
materialization the reader re-materializes the prior block, leaving the prior
block's correct bytes cached.  On `cexD4` (prior block's bytes `[10, 20]` at
offsets 0–1, offset cursor already advanced to 2, next block's decompression
failing) the rollback re-reads at the advanced offset and caches `[1, 2]` —
not the prior block's bytes — so the claim is false at this reader. -/
theorem C4_counterexample :
    ¬ ((readNextBlock cexD4).1.curData = cexD4.curData) := by
  decide

/-- C4 amended: if materializing the next block fails with error `e`, the
reader rolls its current-block index back and re-materializes that block slot
at the reader's current image offset — the offset itself is not rolled back,
so the resulting state is exactly `readCurBlock` applied to the original
reader (whose offset has already advanced past the prior block's payload),
and the cached bytes equal the prior block's original bytes only when that
re-read yields them; the failed `Read` call itself still returns the bytes
copied so far together with the error. -/
theorem C4_amended (d : DataReader) (e : GErr)
    (hl : d.curBlock + 1 < (d.blocks.length : Int))
    (hf : (readCurBlock { d with curBlock := d.curBlock + 1 }).2 = some e) :
    readNextBlock d = ((readCurBlock d).1, some e) ∧
    ∀ fuel p read curRead, read < p.length → d.curReadOffset = d.curData.length →
      readLoop (fuel + 1) d p read curRead = some ((readCurBlock d).1, p, read, some e) := by
  have hs : (readCurBlock { d with curBlock := d.curBlock + 1 }).1
      = { d with curBlock := d.curBlock + 1 } :=
    readCurBlock_err _ e hf
  have hmain : readNextBlock d = ((readCurBlock d).1, some e) := by
    unfold readNextBlock
    rw [if_neg (by simp; omega)]
    have hsplit : readCurBlock { d with curBlock := d.curBlock + 1 }
        = ({ d with curBlock := d.curBlock + 1 }, some e) := by
      rw [Prod.ext_iff]
      exact ⟨hs, hf⟩
    rw [hsplit]
    show ((readCurBlock { d with curBlock := d.curBlock + 1 - 1 }).1, some e)
      = ((readCurBlock d).1, some e)
    have hcb : d.curBlock + 1 - 1 = d.curBlock := by omega
    rw [hcb]
  refine ⟨hmain, ?_⟩
  intro fuel p read curRead h1 h2
  rw [readLoop, if_pos h1, if_pos h2, hmain]

/-- C4 amended, witnessed on `cexD4`: the failed next-block materialization
rolls the index back and the result is the re-materialization of the current
state, with the error returned. -/
theorem C4_amended_witness :
    readNextBlock cexD4 = ((readCurBlock cexD4).1, some GErr.decompressFail) :=
  (C4_amended cexD4 GErr.decompressFail (by decide) (by decide)).1

/-! Claim C5. -/

/-- Evaluation of `readCurBlock` on a sparse (on-disk size 0) current block:
the cache becomes a block-size run of zero bytes, the descriptor records the
current offset and the block-size uncompressed size, no error occurs, and the
offset does not advance.  The image is never consulted. -/
theorem readCurBlock_sparse (d : DataReader)
    (h1 : d.curBlock < (d.blocks.length : Int))
    (h2 : (d.blocks.getD d.curBlock.toNat default).size = 0) :
    readCurBlock d =
      ({ d with
          curData := List.replicate d.r.blockSize 0
          blocks := d.blocks.set d.curBlock.toNat
            { d.blocks.getD d.curBlock.toNat default with
                uncompressedSize := d.r.blockSize, begOffset := d.offset } }, none) := by
  unfold readCurBlock
  rw [if_neg (by omega), if_pos h2]

/-- C5: materializing a Block Descriptor of on-disk size 0 succeeds, caches
exactly `blockSize` zero bytes, does not advance the reader's image offset,
and reads no bytes from the image (the same holds for every image
substituted into the reader). -/
theorem C5_sparse (d : DataReader)
    (_h0 : 0 ≤ d.curBlock)
    (h1 : d.curBlock < (d.blocks.length : Int))
    (h2 : (d.blocks.getD d.curBlock.toNat default).size = 0) :
    (readCurBlock d).2 = none ∧
    (readCurBlock d).1.curData = List.replicate d.r.blockSize 0 ∧
    (readCurBlock d).1.offset = d.offset ∧
    ∀ img2, (readCurBlock { d with r := { d.r with image := img2 } }).1.curData
        = List.replicate d.r.blockSize 0 ∧
      (readCurBlock { d with r := { d.r with image := img2 } }).1.offset = d.offset := by
  refine ⟨?_, ?_, ?_, ?_⟩
  · rw [readCurBlock_sparse d h1 h2]
  · rw [readCurBlock_sparse d h1 h2]
  · rw [readCurBlock_sparse d h1 h2]
  · intro img2
    constructor
    · rw [readCurBlock_sparse { d with r := { d.r with image := img2 } } h1 h2]
    · rw [readCurBlock_sparse { d with r := { d.r with image := img2 } } h1 h2]

/-- C5 witnessed on the sparse reader `dw5` (block size 3, offset 7): no
error, three zero bytes cached, offset unchanged. -/
theorem C5_sparse_witness :
    (readCurBlock dw5).2 = none ∧
    (readCurBlock dw5).1.curData = List.replicate dw5.r.blockSize 0 ∧
    (readCurBlock dw5).1.offset = dw5.offset :=
  ⟨(C5_sparse dw5 (by decide) (by decide) (by decide)).1,
    (C5_sparse dw5 (by decide) (by decide) (by decide)).2.1,
    (C5_sparse dw5 (by decide) (by decide) (by decide)).2.2.1⟩

/-! Claim C6. -/

/-- C6: the claim says `ReadDir(n)` with `n > 0` returns up to `n` entries and
signals `io.EOF` once all entries have been returned.  The code violates
this: it clamps the slice bound against the Reader's own entry list `f.r.e`
instead of this directory's entry list, so on the directory node `f6` (two
child entries, five entries in the Reader's list) `ReadDir 3` slices the
two-entry list with bound 3 and panics (embedded as `none`) instead of
returning the two entries together with `io.EOF`. -/
theorem C6_readdir_panics : FileNode.ReadDir f6 3 = none := by
  rfl

/-! Claim C7. -/

/-- C7: on a node whose inode is not a regular file, `Read`, `ReadAt` and
`WriteTo` each fail with the not-a-file error and report 0 bytes, leaving the
node and buffer untouched. -/
theorem C7_notAFile (f : FileNode) (h1 : f.itype ≠ .fil) (h2 : f.itype ≠ .efil) :
    (∀ fuel p, FileNode.Read fuel f p = some (f, p, 0, some .notAFile)) ∧
    (∀ p off, FileNode.ReadAt f p off = (0, some .notAFile)) ∧
    FileNode.WriteTo f = (0, some .notAFile) := by
  refine ⟨?_, ?_, ?_⟩
  · intro fuel p
    rw [FileNode.Read, if_pos ⟨h1, h2⟩]
  · intro p off
    rw [FileNode.ReadAt, if_pos ⟨h1, h2⟩]
  · rw [FileNode.WriteTo, if_pos ⟨h1, h2⟩]

/-- C7 witnessed on the directory node `f7w`. -/
theorem C7_notAFile_witness :
    FileNode.Read 3 f7w [5] = some (f7w, [5], 0, some .notAFile) ∧
    FileNode.ReadAt f7w [5] 0 = (0, some .notAFile) ∧
    FileNode.WriteTo f7w = (0, some .notAFile) :=
  ⟨(C7_notAFile f7w (by decide) (by decide)).1 3 [5],
    (C7_notAFile f7w (by decide) (by decide)).2.1 [5] 0,
    (C7_notAFile f7w (by decide) (by decide)).2.2⟩

/-! Claim C8. -/

/-- C8: for device nodes the decoded major number is the packed device field
shifted right by 8 bits (i.e. `dev / 2^8`) and the minor number is its low 8
bits (i.e. `dev % 2^8`). -/
theorem C8_device (f : FileNode)
    (h : f.itype = .char ∨ f.itype = .blk ∨ f.itype = .echar ∨ f.itype = .eblk) :
    FileNode.deviceDevices f = (f.devField / 2 ^ 8, f.devField % 2 ^ 8) := by
  have h255 : (0x000FF : Nat) = 2 ^ 8 - 1 := by norm_num
  have hdev : FileNode.deviceDevices f = (f.devField >>> 8, f.devField &&& 0x000FF) := by
    unfold FileNode.deviceDevices
    rcases h with h | h | h | h
    · rw [if_pos (Or.inl h)]
    · rw [if_pos (Or.inr h)]
    · rw [if_neg (by rw [h]; decide), if_pos (Or.inl h)]
    · rw [if_neg (by rw [h]; decide), if_pos (Or.inr h)]
  rw [hdev, Nat.shiftRight_eq_div_pow, h255, Nat.and_pow_two_sub_one_eq_mod]

/-- C8 witnessed on the character-device node `f8w` with packed field
`0xABC`. -/
theorem C8_device_witness :
    FileNode.deviceDevices f8w = (f8w.devField / 2 ^ 8, f8w.devField % 2 ^ 8) :=
  C8_device f8w (Or.inl rfl)

/-! Claim C9. -/

/-- C9: `Close` always reports a nil error, and after it the reader handle is
nil, so a `Read` on a regular-file node returns 0 bytes with the closed-file
error instead of reading data. -/
theorem C9_close (f : FileNode) :
    (FileNode.Close f).2 = none ∧
    ∀ fuel p, f.itype = .fil ∨ f.itype = .efil →
      FileNode.Read fuel (FileNode.Close f).1 p
        = some ((FileNode.Close f).1, p, 0, some .closed) := by
  refine ⟨rfl, ?_⟩
  intro fuel p h
  have hne : ¬((FileNode.Close f).1.itype ≠ .fil ∧ (FileNode.Close f).1.itype ≠ .efil) := by
    show ¬(f.itype ≠ .fil ∧ f.itype ≠ .efil)
    rcases h with h | h <;> simp [h]
  rw [FileNode.Read, if_neg hne]
  rfl

/-- C9 witnessed on the open regular-file node `f9w`. -/
theorem C9_close_witness :
    (FileNode.Close f9w).2 = none ∧
    FileNode.Read 5 (FileNode.Close f9w).1 [1, 2]
      = some ((FileNode.Close f9w).1, [1, 2], 0, some .closed) :=
  ⟨(C9_close f9w).1, (C9_close f9w).2 5 [1, 2] (Or.inl rfl)⟩

/-! Claim C10. -/

/-- `readCurBlock` never moves the current-block index. -/
theorem readCurBlock_curBlock (d : DataReader) :
    (readCurBlock d).1.curBlock = d.curBlock := by
  simp only [readCurBlock]
  split
  · rfl
  · split
    · rfl
    · split
      · rfl
      · split
        · split
          · rfl
          · rfl
        · rfl

/-- `readCurBlock` never changes the number of blocks. -/
theorem readCurBlock_blocksLength (d : DataReader) :
    (readCurBlock d).1.blocks.length = d.blocks.length := by
  simp only [readCurBlock]
  split
  · rfl
  · split
    · simp [List.length_set]
    · split
      · rfl
      · split
        · split
          · rfl
          · simp [List.length_set]
        · simp [List.length_set]

/-- A successful `readCurBlock` implies the current-block index was below the
block count. -/
theorem readCurBlock_ok_lt (d : DataReader) (h : (readCurBlock d).2 = none) :
    d.curBlock < (d.blocks.length : Int) := by
  by_contra hc
  unfold readCurBlock at h
  rw [if_pos (by omega)] at h
  simp at h

/-- `readNextBlock` keeps the current-block index in range. -/
theorem readNextBlock_good (d : DataReader) (h : goodIdx d) :
    goodIdx (readNextBlock d).1 := by
  obtain ⟨h0, h1⟩ := h
  simp only [readNextBlock]
  split
  · exact ⟨by simp; omega, by simp; omega⟩
  · rename_i hlt
    have hlt2 : d.curBlock + 1 < (d.blocks.length : Int) := by
      simp at hlt
      omega
    split
    · rename_i d2 heq
      have hcb : d2.curBlock = d.curBlock + 1 := by
        have := readCurBlock_curBlock { d with curBlock := d.curBlock + 1 }
        rw [heq] at this
        exact this
      have hbl : d2.blocks.length = d.blocks.length := by
        have := readCurBlock_blocksLength { d with curBlock := d.curBlock + 1 }
        rw [heq] at this
        exact this
      show goodIdx d2
      exact ⟨by omega, by omega⟩
    · rename_i d2 e heq
      have hcb : d2.curBlock = d.curBlock + 1 := by
        have := readCurBlock_curBlock { d with curBlock := d.curBlock + 1 }
        rw [heq] at this
        exact this
      have hbl : d2.blocks.length = d.blocks.length := by
        have := readCurBlock_blocksLength { d with curBlock := d.curBlock + 1 }
        rw [heq] at this
        exact this
      have hcb3 := readCurBlock_curBlock { d2 with curBlock := d2.curBlock - 1 }
      have hbl3 := readCurBlock_blocksLength { d2 with curBlock := d2.curBlock - 1 }
      show goodIdx (readCurBlock { d2 with curBlock := d2.curBlock - 1 }).1
      constructor
      · rw [hcb3]
        show (0 : Int) ≤ d2.curBlock - 1
        omega
      · rw [hcb3, hbl3]
        show d2.curBlock - 1 < (d2.blocks.length : Int)
        omega

/-- The outer read loop keeps the current-block index in range. -/
theorem readLoop_good : ∀ fuel (d : DataReader) p read curRead res,
    goodIdx d → readLoop fuel d p read curRead = some res → goodIdx res.1 := by
  intro fuel
  induction fuel with
  | zero =>
    intro d p read curRead res _ h
    simp [readLoop] at h
  | succ n ih =>
    intro d p read curRead res hg h
    rw [readLoop] at h
    split at h
    · split at h
      · split at h
        · rename_i d1 e heq
          cases h
          have := readNextBlock_good d hg
          rw [heq] at this
          exact this
        · rename_i d1 heq
          have hg1 : goodIdx d1 := by
            have := readNextBlock_good d hg
            rw [heq] at this
            exact this
          exact ih d1 _ _ _ res hg1 h
      · exact ih d _ _ _ res hg h
    · split at h
      · cases h
        exact hg
      · cases h
        exact hg

/-- `DataReader.read` keeps the current-block index in range. -/
theorem read_good (fuel : Nat) (d : DataReader) (p : List Nat) (res)
    (hg : goodIdx d) (h : DataReader.read fuel d p = some res) : goodIdx res.1 := by
  rw [DataReader.read] at h
  split at h
  · cases h
    exact ⟨hg.1, hg.2⟩
  · exact readLoop_good fuel d p 0 0 res hg h

/-- C10: constructing a sequential reader over an empty size list fails; a
successful construction yields an in-range current-block index over a
non-empty block list; and every terminating `Read` call preserves
`0 ≤ curBlock < len(blocks)`. -/
theorem C10_invariant :
    (∀ r off, NewDataReader r off [] = none) ∧
    (∀ r off sizes d, NewDataReader r off sizes = some d → goodIdx d) ∧
    (∀ fuel d p res, goodIdx d → DataReader.read fuel d p = some res → goodIdx res.1) := by
  refine ⟨fun r off => rfl, ?_, fun fuel d p res hg h => read_good fuel d p res hg h⟩
  intro r off sizes d h
  simp only [NewDataReader] at h
  split at h
  · rename_i d1 heq
    cases h
    have hlt := readCurBlock_ok_lt _ (by rw [heq])
    have hcb := readCurBlock_curBlock
      { r := r, offset := off, blocks := sizes.map NewDataBlockSize,
        curBlock := 0, curData := [], curReadOffset := 0 }
    have hbl := readCurBlock_blocksLength
      { r := r, offset := off, blocks := sizes.map NewDataBlockSize,
        curBlock := 0, curData := [], curReadOffset := 0 }
    rw [heq] at hcb hbl
    constructor
    · rw [hcb]
    · rw [hcb, hbl]
      exact hlt
  · exact absurd h (by simp)

/-- C10 witnessed: the empty construction fails; the construction over one
size yields an in-range index; a concrete one-byte `Read` preserves it. -/
theorem C10_witness :
    NewDataReader ⟨[], 0, fun _ => none⟩ 0 [] = none ∧
    goodIdx c2d ∧ goodIdx c10d1 :=
  ⟨C10_invariant.1 ⟨[], 0, fun _ => none⟩ 0,
    C10_invariant.2.1 c2r 0 [3] c2d rfl,
    C10_invariant.2.2 1 c2d [0] (c10d1, [10], 1, none) ⟨by decide, by decide⟩ rfl⟩
